import Mathlib

/-!
Shallow embedding of `scripts/aggregate-reviews.py`.

The script has three parts that the claims are about:
  * `load_review`  (lines 29-59): tolerant loading of one review JSON file;
  * `aggregate_reviews` (lines 61-132): merging reviews, severity bucketing,
    report rendering and the exit-code decision;
  * the `__main__` block (lines 134-150): argument handling.

Modelling choices, stated once here:
  * JSON values are the inductive `Json` below.  Python's `json.loads` is
    embedded as `json_loads`, a recursive-descent parser over `List Char`.
    Model restrictions (irrelevant to every claim, which involve only
    objects, arrays, strings and small integers): number literals are
    parsed only in integer form (a fractional part, an exponent, `NaN` or
    `Infinity` makes the parse fail), and the `\u` string escape is not
    supported.  Parsed objects follow Python dict semantics: a duplicated
    key overwrites the earlier value in place (`objInsert`).
  * The file system is a partial map `fs : String → Option String`;
    `fs p = none` models both "the path does not exist" and "open/read
    raises", which the script treats identically (the `except` at line 57).
    `os.path.exists p` is modelled as `(fs p).isSome`.
  * Python exceptions that escape a function are modelled with
    `Except String`: `aggregate_reviews` can die with `KeyError` /
    `AttributeError` / `TypeError` on ill-shaped reviews, and the model
    returns `.error` there.  Output printed before such a crash is
    discarded by the model; no claim depends on it.
  * The report is modelled as the list of strings passed to `print`, one
    list element per `print` call (each call appends one newline, which we
    do not store).
-/

/-- JSON values as produced by Python's `json` module (ints only, see the
header comment). -/
inductive Json where
  | null
  | bool (b : Bool)
  | num (n : Int)
  | str (s : String)
  | arr (elems : List Json)
  | obj (fields : List (String × Json))

/-- Python dict insertion: overwrite in place when the key exists, append
otherwise.  Parsed objects therefore never carry duplicate keys. -/
def objInsert (kvs : List (String × Json)) (k : String) (v : Json) :
    List (String × Json) :=
  if kvs.any (fun kv => kv.1 = k) then
    kvs.map (fun kv => if kv.1 = k then (k, v) else kv)
  else kvs ++ [(k, v)]

/-- Python dict lookup (`d[k]` / `k in d`), as an optional value. -/
def objGet : List (String × Json) → String → Option Json
  | [], _ => none
  | kv :: rest, k => if kv.1 = k then some kv.2 else objGet rest k

/-- JSON whitespace (the four characters the JSON grammar allows between
tokens). -/
def jsonWs (c : Char) : Bool :=
  c = ' ' || c = '\t' || c = '\n' || c = '\r'

/-- Drop leading JSON whitespace. -/
def skipWs : List Char → List Char
  | [] => []
  | c :: cs => if jsonWs c then skipWs cs else c :: cs

/-- Decode one character escape of a JSON string literal (`\u` unsupported,
see the header comment). -/
def escChar (c : Char) : Option Char :=
  if c = '"' then some '"'
  else if c = '\\' then some '\\'
  else if c = '/' then some '/'
  else if c = 'b' then some '\x08'
  else if c = 'f' then some '\x0c'
  else if c = 'n' then some '\n'
  else if c = 'r' then some '\r'
  else if c = 't' then some '\t'
  else none

/-- Parse the body of a JSON string literal, after the opening quote.
Returns the decoded string and the rest of the input. -/
def parseStrBody : List Char → List Char → Option (String × List Char)
  | _, [] => none
  | acc, c :: cs =>
    if c = '"' then some (String.mk acc.reverse, cs)
    else if c = '\\' then
      match cs with
      | [] => none
      | e :: cs' =>
        match escChar e with
        | some d => parseStrBody (d :: acc) cs'
        | none => none
    else if c.toNat < 32 then none
    else parseStrBody (c :: acc) cs

/-- Parse a JSON number in integer form (see the header comment). -/
def parseNum (s : List Char) : Option (Json × List Char) :=
  let p := match s with
    | '-' :: rest => (true, rest)
    | _ => (false, s)
  let ds := p.2.takeWhile Char.isDigit
  let rest := p.2.dropWhile Char.isDigit
  if ds.isEmpty then none
  else if ds.length > 1 && ds.headD '0' = '0' then none
  else match rest with
    | '.' :: _ => none
    | 'e' :: _ => none
    | 'E' :: _ => none
    | _ =>
      let n : Int := Int.ofNat (ds.foldl (fun n c => n * 10 + (c.toNat - 48)) 0)
      some (.num (if p.1 then -n else n), rest)

/-- Consume an expected keyword such as `true`, returning the rest. -/
def dropKeyword (pre s : List Char) : Option (List Char) :=
  if pre.isPrefixOf s then some (s.drop pre.length) else none

mutual

/-- Parse one JSON value (fuel-indexed recursive descent; the caller
supplies more fuel than any input of that length can consume). -/
def parseVal : Nat → List Char → Option (Json × List Char)
  | 0, _ => none
  | fuel + 1, s =>
    match skipWs s with
    | [] => none
    | c :: rest =>
      if c = '"' then
        match parseStrBody [] rest with
        | some (t, r) => some (.str t, r)
        | none => none
      else if c = '[' then
        match skipWs rest with
        | ']' :: r => some (.arr [], r)
        | r =>
          match parseItems fuel r with
          | some (xs, r') => some (.arr xs, r')
          | none => none
      else if c = '{' then
        match skipWs rest with
        | '}' :: r => some (.obj [], r)
        | r =>
          match parseFields fuel r [] with
          | some (kvs, r') => some (.obj kvs, r')
          | none => none
      else if c = 't' then
        match dropKeyword ['t', 'r', 'u', 'e'] (c :: rest) with
        | some r => some (.bool true, r)
        | none => none
      else if c = 'f' then
        match dropKeyword ['f', 'a', 'l', 's', 'e'] (c :: rest) with
        | some r => some (.bool false, r)
        | none => none
      else if c = 'n' then
        match dropKeyword ['n', 'u', 'l', 'l'] (c :: rest) with
        | some r => some (.null, r)
        | none => none
      else parseNum (c :: rest)

/-- Parse the items of a non-empty JSON array, up to and including `]`. -/
def parseItems : Nat → List Char → Option (List Json × List Char)
  | 0, _ => none
  | fuel + 1, s =>
    match parseVal fuel s with
    | none => none
    | some (v, r) =>
      match skipWs r with
      | ',' :: r' =>
        match parseItems fuel r' with
        | some (xs, r'') => some (v :: xs, r'')
        | none => none
      | ']' :: r' => some ([v], r')
      | _ => none

/-- Parse the fields of a non-empty JSON object, up to and including the
closing brace, accumulating with Python dict semantics. -/
def parseFields : Nat → List Char → List (String × Json) →
    Option (List (String × Json) × List Char)
  | 0, _, _ => none
  | fuel + 1, s, acc =>
    match skipWs s with
    | '"' :: rest =>
      match parseStrBody [] rest with
      | none => none
      | some (k, r) =>
        match skipWs r with
        | ':' :: r' =>
          match parseVal fuel r' with
          | none => none
          | some (v, r'') =>
            match skipWs r'' with
            | ',' :: r3 => parseFields fuel r3 (objInsert acc k v)
            | '}' :: r3 => some (objInsert acc k v, r3)
            | _ => none
        | _ => none
    | _ => none

end

/-- Embedding of Python's `json.loads`: parse one value, allow trailing
whitespace only (Python raises `Extra data` otherwise), `none` = raised
`json.JSONDecodeError`. -/
def json_loads (s : String) : Option Json :=
  match parseVal (s.length * 2 + 2) s.data with
  | some (v, rest) => if (skipWs rest).isEmpty then some v else none
  | none => none

/-- Whitespace stripped by Python's `str.strip()` (ASCII part; the unicode
spaces Python also strips never occur in the claims). -/
def pySpace (c : Char) : Bool :=
  c = ' ' || c = '\t' || c = '\n' || c = '\r' || c = '\x0b' || c = '\x0c'

/-- Embedding of Python's `str.strip()` with no arguments. -/
def pyStrip (s : String) : String :=
  String.mk (((s.data.dropWhile pySpace).reverse.dropWhile pySpace).reverse)

/-- Replace every non-overlapping occurrence of `pat` in `s`, scanning left
to right — Python's `str.replace` (only ever called with a non-empty
pattern here; the fuel exceeds the input length, so it never runs out). -/
def replaceChars : Nat → List Char → List Char → List Char → List Char
  | 0, _, _, s => s
  | fuel + 1, pat, rep, s =>
    match s with
    | [] => []
    | c :: rest =>
      if pat.isPrefixOf s then rep ++ replaceChars fuel pat rep (s.drop pat.length)
      else c :: replaceChars fuel pat rep rest

/-- Embedding of Python's `s.replace(pat, rep)`. -/
def pyReplace (s pat rep : String) : String :=
  String.mk (replaceChars (s.data.length + 1) pat.data rep.data s.data)

/-- Embedding of `re.search(r"\x7b.*\x7d", content, re.DOTALL)`: with `.`
matching newlines and `.*` greedy, the match (when it exists) runs from the
leftmost brace that has a closing brace after it — which is then the
leftmost brace overall — through the rightmost closing brace. -/
def extractJsonSpan (s : String) : Option String :=
  let pre := s.data.dropWhile (fun c => c ≠ '{')
  match pre with
  | [] => none
  | _ =>
    let body := (pre.reverse.dropWhile (fun c => c ≠ '}')).reverse
    if body.isEmpty then none else some (String.mk body)

/-- The fallback review `{"status": "error", "issues": []}` (lines 35, 56
and 59 of the script). -/
def errorReview : Json :=
  .obj [("status", .str "error"), ("issues", .arr [])]

/-- The check at line 41: the parsed value is a dict with a string-valued
field `result` ("Claude's wrapper format"); returns that string. -/
def envelopePayload : Json → Option String
  | .obj kvs =>
    match objGet kvs "result" with
    | some (.str s) => some s
    | _ => none
  | _ => none

/-- Lines 49-56: the `except json.JSONDecodeError` handler.  Search the
(stripped) content for a brace-delimited span and parse it; a failed parse
of the span raises, which the outer `except Exception` (line 57) turns
into the fallback review; no span falls through to line 56, also the
fallback review. -/
def extractFallback (content : String) : Json :=
  match extractJsonSpan content with
  | some sub => (json_loads sub).getD errorReview
  | none => errorReview

/-- Embedding of `load_review` (lines 29-59).  `fs` is the file system;
`fs filepath = none` models an unopenable/unreadable path. -/
def load_review (fs : String → Option String) (filepath : String) : Json :=
  match fs filepath with
  | none => errorReview
  | some raw =>
    let content := pyStrip raw
    if content.isEmpty then errorReview
    else
      match json_loads content with
      | some data =>
        match envelopePayload data with
        | some result =>
          let cleaned := pyStrip (pyReplace (pyReplace result "```json" "") "```" "")
          match json_loads cleaned with
          | some inner => inner
          | none => extractFallback content
        | none => data
      | none => extractFallback content

/-- Python `repr` of a parsed-JSON value, used when a value is interpolated
into an f-string inside a container.  Fuel-indexed so that the definition
reduces in the kernel; the fuel passed in always exceeds the depth of any
value a claim touches, and no claim inspects the text produced here. -/
def pyRepr : Nat → Json → String
  | _, .null => "None"
  | _, .bool true => "True"
  | _, .bool false => "False"
  | _, .num n => toString n
  | _, .str s => "\x27" ++ s ++ "\x27"
  | 0, _ => ""
  | fuel + 1, .arr xs =>
    "[" ++ String.intercalate ", " (xs.map (pyRepr fuel)) ++ "]"
  | fuel + 1, .obj kvs =>
    "\x7b" ++ String.intercalate ", "
      (kvs.map (fun kv => "\x27" ++ kv.1 ++ "\x27: " ++ pyRepr fuel kv.2)) ++ "\x7d"

/-- Python `str` of a parsed-JSON value, as interpolated by an f-string. -/
def pyStr (v : Json) : String :=
  match v with
  | .str s => s
  | v => pyRepr 100 v

/-- Python truthiness of a parsed-JSON value (used by
`if issue.get('suggestion'):` at line 118). -/
def pyTruthy : Json → Bool
  | .null => false
  | .bool b => b
  | .num n => n != 0
  | .str s => !s.isEmpty
  | .arr xs => !xs.isEmpty
  | .obj kvs => !kvs.isEmpty

/-- What `for x in v` iterates over in Python, or `none` for a `TypeError`
(dicts yield their keys, strings their one-character substrings). -/
def iterElems : Json → Option (List Json)
  | .arr xs => some xs
  | .str s => some (s.data.map (fun c => .str (String.mk [c])))
  | .obj kvs => some (kvs.map (fun kv => .str kv.1))
  | _ => none

/-- Python item assignment `v[k] = x`, or `none` for a `TypeError` when `v`
is not a dict (line 88: `issue["reviewer"] = role`). -/
def setField (v : Json) (k : String) (x : Json) : Option Json :=
  match v with
  | .obj kvs => some (.obj (objInsert kvs k x))
  | _ => none

/-- Python `v.get(k)` / `v.get(k, default)`, or `none` for an
`AttributeError` when `v` is not a dict. -/
def dictGet (v : Json) (k : String) : Option (Option Json) :=
  match v with
  | .obj kvs => some (objGet kvs k)
  | _ => none

/-- Python's `v == "lit"` for an optional parsed-JSON value `v` and a string
literal: true exactly when `v` is that string (`None == "lit"` and
`1 == "lit"` are false in Python). -/
def eqStrLit (v : Option Json) (lit : String) : Bool :=
  match v with
  | some (.str t) => t = lit
  | _ => false

/-- State threaded through the scanning loop at lines 78-94. -/
structure Scan where
  hasCritical : Bool
  hasHigh : Bool
  allIssues : List Json

/-- The empty scanning state (lines 79-81). -/
def initScan : Scan := ⟨false, false, []⟩

/-- The body of the inner loop at lines 87-94: stamp the reviewer role onto
one issue, append it, and update the critical/high flags; `none` models
the `TypeError` raised when the issue is not a dict. -/
def scanIssue (role : String) (st : Scan) (issue : Json) : Option Scan :=
  match setField issue "reviewer" (.str role) with
  | none => none
  | some issue' =>
    match dictGet issue' "severity" with
    | none => none
    | some sev =>
      let st' : Scan := ⟨st.hasCritical, st.hasHigh, st.allIssues ++ [issue']⟩
      if eqStrLit sev "critical" then some ⟨true, st'.hasHigh, st'.allIssues⟩
      else if eqStrLit sev "high" then some ⟨st'.hasCritical, true, st'.allIssues⟩
      else some st'

/-- Fold `scanIssue` over one review's issue list. -/
def scanIssues (role : String) : Scan → List Json → Option Scan
  | st, [] => some st
  | st, i :: rest =>
    match scanIssue role st i with
    | none => none
    | some st' => scanIssues role st' rest

/-- The body of the outer loop at lines 83-94 for one role: `none` models
the `AttributeError` of `review.get` on a non-dict or the `TypeError` of
iterating a non-iterable `issues` value. -/
def scanReview (st : Scan) (role : String) (review : Json) : Option Scan :=
  match dictGet review "status" with
  | none => none
  | some status =>
    let st1 : Scan :=
      if eqStrLit status "fail" then ⟨true, st.hasHigh, st.allIssues⟩ else st
    match dictGet review "issues" with
    | none => none
    | some issuesField =>
      match iterElems (issuesField.getD (.arr [])) with
      | none => none
      | some elems => scanIssues role st1 elems

/-- Fold `scanReview` over the role→review mapping in insertion order. -/
def scanReviews : Scan → List (String × Json) → Option Scan
  | st, [] => some st
  | st, rv :: rest =>
    match scanReview st rv.1 rv.2 with
    | none => none
    | some st' => scanReviews st' rest

/-- The four bucket lists of `by_severity` (line 104). -/
structure Buckets where
  critical : List Json
  high : List Json
  medium : List Json
  low : List Json

/-- The initial, empty buckets of line 104. -/
def initBuckets : Buckets := ⟨[], [], [], []⟩

/-- The key used to index `by_severity` for one issue (line 106):
`issue.get("severity", "medium")` — the default applies only when the key
is absent.  `none` models the `KeyError`/`TypeError` raised by
`by_severity[severity]` when the value is not one of the four recognized
strings (line 107). -/
def bucketKey (issue : Json) : Option String :=
  match issue with
  | .obj kvs =>
    match objGet kvs "severity" with
    | none => some "medium"
    | some (.str s) =>
      if s = "critical" ∨ s = "high" ∨ s = "medium" ∨ s = "low" then some s
      else none
    | some _ => none
  | _ => none

/-- Append one issue to its bucket (lines 105-107). -/
def bucketAdd (b : Buckets) (issue : Json) : Option Buckets :=
  match bucketKey issue with
  | none => none
  | some s =>
    if s = "critical" then some ⟨b.critical ++ [issue], b.high, b.medium, b.low⟩
    else if s = "high" then some ⟨b.critical, b.high ++ [issue], b.medium, b.low⟩
    else if s = "medium" then some ⟨b.critical, b.high, b.medium ++ [issue], b.low⟩
    else if s = "low" then some ⟨b.critical, b.high, b.medium, b.low ++ [issue]⟩
    else none

/-- The grouping loop at lines 105-107. -/
def buildBuckets : Buckets → List Json → Option Buckets
  | b, [] => some b
  | b, i :: rest =>
    match bucketAdd b i with
    | none => none
    | some b' => buildBuckets b' rest

/-- The success message of line 98. -/
def noIssuesMsg : String := "✅ No issues found in AI reviews"

/-- The summary header of line 101 (the f-string embeds its own leading and
trailing newline). -/
def summaryHeader (n : Nat) : String :=
  "\n📊 AI Review Summary: " ++ toString n ++ " issues found\n"

/-- The bucket header of line 114, with the emoji table of line 113 (the
medium emoji carries a trailing space in the source). -/
def bucketHeader (severity : String) (n : Nat) : String :=
  let emoji :=
    if severity = "critical" then "🚨"
    else if severity = "high" then "❗"
    else if severity = "medium" then "⚠️ "
    else "💡"
  emoji ++ " " ++ severity.toUpper ++ " (" ++ toString n ++ " issues):"

/-- The must-fix message of line 124. -/
def mustFixMsg : String := "❌ Critical issues must be fixed before committing"

/-- The two bypass-available messages of lines 127-128. -/
def highMsg : String := "⚠️  High priority issues should be addressed"

/-- Second line of the bypass-available message (line 128). -/
def bypassMsg : String :=
  "Use \x27git commit --no-verify\x27 to bypass if necessary"

/-- The no-blocking message of line 131. -/
def noBlockingMsg : String := "✅ No blocking issues found"

/-- The usage message of line 136. -/
def usageMsg : String :=
  "Usage: aggregate-reviews.py <architect.json> <security.json> <testing.json> [documentation.json] [devops.json] [ux.json]"

/-- The two or three lines printed for one issue (lines 116-119): `none`
models the `KeyError` of `issue['file']` / `issue['issue']` on a missing
key (`issue['reviewer']` was stamped by the scan and is always there). -/
def renderIssue (issue : Json) : Option (List String) :=
  match issue with
  | .obj kvs =>
    match objGet kvs "reviewer", objGet kvs "file", objGet kvs "issue" with
    | some rv, some fv, some iv =>
      let lineStr := match objGet kvs "line" with
        | some lv => pyStr lv
        | none => "?"
      let base := ["  [" ++ pyStr rv ++ "] " ++ pyStr fv ++ ":" ++ lineStr,
                   "    " ++ pyStr iv]
      match objGet kvs "suggestion" with
      | some sv => if pyTruthy sv then some (base ++ ["    → " ++ pyStr sv]) else some base
      | none => some base
    | _, _, _ => none
  | _ => none

/-- The per-issue rendering loop of lines 115-119, one line-group per
issue, failing as soon as one issue raises. -/
def renderAll : List Json → Option (List (List String))
  | [] => some []
  | i :: rest =>
    match renderIssue i with
    | none => none
    | some ls =>
      match renderAll rest with
      | none => none
      | some rest' => some (ls :: rest')

/-- The lines printed for one severity bucket (lines 110-120): nothing when
the bucket is empty, else the bucket header, the issue lines, and the blank
line of the bare `print()` at line 120. -/
def renderBucket (severity : String) (issues : List Json) : Option (List String) :=
  if issues.isEmpty then some []
  else
    match renderAll issues with
    | some liness => some (bucketHeader severity issues.length :: liness.flatten ++ [""])
    | none => none

/-- The whole severity-ordered rendering loop of lines 110-120. -/
def renderBuckets (b : Buckets) : Option (List String) :=
  match renderBucket "critical" b.critical, renderBucket "high" b.high,
        renderBucket "medium" b.medium, renderBucket "low" b.low with
  | some c, some h, some m, some l => some (c ++ h ++ m ++ l)
  | _, _, _, _ => none

/-- Lines 71-76: an optional role is included only when its path argument
is truthy (present and non-empty) and `os.path.exists` holds. -/
def optRole (fs : String → Option String) (role : String) :
    Option String → List (String × Json)
  | some path =>
    if path ≠ "" ∧ (fs path).isSome then [(role, load_review fs path)] else []
  | none => []

/-- Lines 64-76: the role→review mapping in Python dict insertion order —
the three required roles, then the optional ones. -/
def reviewsOf (fs : String → Option String)
    (architect_path security_path testing_path : String)
    (documentation_path devops_path ux_path : Option String) :
    List (String × Json) :=
  [("architect", load_review fs architect_path),
   ("security", load_review fs security_path),
   ("testing", load_review fs testing_path)]
  ++ optRole fs "documentation" documentation_path
  ++ optRole fs "devops" devops_path
  ++ optRole fs "ux" ux_path

/-- Embedding of `aggregate_reviews` (lines 61-132): returns the printed
lines and the returned exit code, or `.error` when the Python function
would die of an uncaught exception (see the header comment). -/
def aggregate_reviews (fs : String → Option String)
    (architect_path security_path testing_path : String)
    (documentation_path devops_path ux_path : Option String) :
    Except String (List String × Nat) :=
  let reviews := reviewsOf fs architect_path security_path testing_path
    documentation_path devops_path ux_path
  match scanReviews initScan reviews with
  | none => .error "AttributeError or TypeError while scanning reviews"
  | some st =>
    if st.allIssues.isEmpty then .ok ([noIssuesMsg], 0)
    else
      match buildBuckets initBuckets st.allIssues with
      | none => .error "KeyError: unrecognized severity value"
      | some b =>
        match renderBuckets b with
        | none => .error "KeyError: missing issue field"
        | some sections =>
          let tail :=
            if st.hasCritical then ([mustFixMsg], 1)
            else if st.hasHigh then ([highMsg, bypassMsg], 1)
            else ([noBlockingMsg], 0)
          .ok (summaryHeader st.allIssues.length :: sections ++ tail.1, tail.2)

/-- Embedding of the `__main__` block (lines 134-150).  `argv` is the full
`sys.argv`, program name included; fewer than four entries means fewer than
three positional arguments. -/
def mainRun (fs : String → Option String) (argv : List String) :
    Except String (List String × Nat) :=
  match argv with
  | _ :: a :: s :: t :: rest =>
    aggregate_reviews fs a s t (rest.get? 0) (rest.get? 1) (rest.get? 2)
  | _ => .ok ([usageMsg], 1)

/-- The `severity` value of an issue, as the scan reads it. -/
def sevTag : Json → Option Json
  | .obj kvs => objGet kvs "severity"
  | _ => none

/-- Whether one issue sets `has_critical` (line 91). -/
def isCritIssue (i : Json) : Bool := eqStrLit (sevTag i) "critical"

/-- Whether one issue sets `has_high` (line 93). -/
def isHighIssue (i : Json) : Bool := eqStrLit (sevTag i) "high"

/-- Whether one review sets `has_critical` by its status (line 84). -/
def statusFail : Json → Bool
  | .obj kvs => eqStrLit (objGet kvs "status") "fail"
  | _ => false

/-- The issue list the scan iterates for one review (lines 87), for
reviews whose `issues` field is absent or an array. -/
def reviewIssues : Json → List Json
  | .obj kvs =>
    match objGet kvs "issues" with
    | some (.arr xs) => xs
    | _ => []
  | _ => []

/-- The effect of line 88 on a dict issue: stamp the reviewer role. -/
def stampRole (role : String) : Json → Json
  | .obj kvs => .obj (objInsert kvs "reviewer" (.str role))
  | v => v

/-- The merged issue list in the order the scan builds it: roles in mapping
order, each role's issues in their original order, each stamped. -/
def orderedIssues (reviews : List (String × Json)) : List Json :=
  reviews.flatMap (fun rv => (reviewIssues rv.2).map (stampRole rv.1))

/-- Well-formedness of one issue per the data model: a dict whose
`severity`, when present, is one of the four recognized strings, and whose
`file` and `issue` fields are present (so that rendering cannot raise). -/
def issueWF (issue : Json) : Bool :=
  match issue with
  | .obj kvs =>
    (match objGet kvs "severity" with
     | none => true
     | some (.str s) => s = "critical" || s = "high" || s = "medium" || s = "low"
     | some _ => false)
    && (objGet kvs "file").isSome && (objGet kvs "issue").isSome
  | _ => false

/-- Well-formedness of one review per the data model: a dict whose `issues`
field, when present, is an array of well-formed issues. -/
def reviewWF (review : Json) : Bool :=
  match review with
  | .obj kvs =>
    match objGet kvs "issues" with
    | none => true
    | some (.arr xs) => xs.all issueWF
    | some _ => false
  | _ => false

/-- The value of `has_critical` after the scan (lines 84 and 91): some
review has status `"fail"` or some merged issue has severity `"critical"`. -/
def hasCriticalOf (reviews : List (String × Json)) : Bool :=
  reviews.any (fun rv => statusFail rv.2) || (orderedIssues reviews).any isCritIssue

/-- The value of `has_high` after the scan (line 93). -/
def hasHighOf (reviews : List (String × Json)) : Bool :=
  (orderedIssues reviews).any isHighIssue

/-- A finite file system given by an association list of paths and
contents. -/
def fsOf (entries : List (String × String)) : String → Option String :=
  fun p => (entries.find? (fun kv => kv.1 = p)).map (fun kv => kv.2)

/-- Three review files: security reports status `"fail"`, every issue list
is empty. -/
def fsFailEmpty : String → Option String := fsOf
  [("architect.json", "\x7b\"status\":\"pass\",\"issues\":[]\x7d"),
   ("security.json", "\x7b\"status\":\"fail\",\"issues\":[]\x7d"),
   ("testing.json", "\x7b\"status\":\"pass\",\"issues\":[]\x7d")]

/-- Three review files: the architect review carries one issue whose
severity `"blocker"` is outside the four recognized values. -/
def fsOddSeverity : String → Option String := fsOf
  [("architect.json",
    "\x7b\"status\":\"pass\",\"issues\":[\x7b\"file\":\"x.py\",\"issue\":\"bad\",\"severity\":\"blocker\"\x7d]\x7d"),
   ("security.json", "\x7b\"status\":\"pass\",\"issues\":[]\x7d"),
   ("testing.json", "\x7b\"status\":\"pass\",\"issues\":[]\x7d")]

/-- One file holding an envelope whose `result` payload is not JSON. -/
def fsBadInner : String → Option String := fsOf
  [("review.json", "\x7b\"result\": \"not json\"\x7d")]

/-- One file holding the envelope-with-fenced-payload example of the spec:
the JSON text `{"result": "<fenced json>"}`, whose `result` string decodes
to three backticks, `json`, a newline, the inner review object, a newline
and three closing backticks. -/
def fsEnvelope : String → Option String := fsOf
  [("review.json",
    "\x7b\"result\": \"```json\\n\x7b\\\"status\\\":\\\"ok\\\",\\\"issues\\\":[]\x7d\\n```\"\x7d")]

/-- One file holding prose around a JSON object (the substring-extraction
example of the spec). -/
def fsNoise : String → Option String := fsOf
  [("review.json", "noise before \x7b\"status\":\"ok\",\"issues\":[]\x7d noise after")]

/-- Three review files where the architect file holds a JSON array, not an
object (plus a single-element array file for the loader pass-through). -/
def fsNonObject : String → Option String := fsOf
  [("architect.json", "[]"),
   ("security.json", "\x7b\"status\":\"pass\",\"issues\":[]\x7d"),
   ("testing.json", "\x7b\"status\":\"pass\",\"issues\":[]\x7d"),
   ("value.json", "[5]")]

/-- Three review files with one critical and one low issue (the blocking
scenario used to instantiate the aggregation theorems). -/
def fsCritLow : String → Option String := fsOf
  [("architect.json",
    "\x7b\"status\":\"pass\",\"issues\":[\x7b\"file\":\"x.py\",\"line\":3,\"issue\":\"boom\",\"severity\":\"critical\",\"suggestion\":\"fix\"\x7d]\x7d"),
   ("security.json",
    "\x7b\"status\":\"pass\",\"issues\":[\x7b\"file\":\"y.py\",\"issue\":\"meh\",\"severity\":\"low\"\x7d]\x7d"),
   ("testing.json", "\x7b\"status\":\"pass\",\"issues\":[]\x7d")]

/-- Three review files with a single high-severity issue (the
bypass-available scenario). -/
def fsHighOnly : String → Option String := fsOf
  [("architect.json",
    "\x7b\"status\":\"pass\",\"issues\":[\x7b\"file\":\"x.py\",\"issue\":\"hmm\",\"severity\":\"high\"\x7d]\x7d"),
   ("security.json", "\x7b\"status\":\"pass\",\"issues\":[]\x7d"),
   ("testing.json", "\x7b\"status\":\"pass\",\"issues\":[]\x7d")]

/-- Three review files with a single issue carrying no severity field (the
medium-default scenario). -/
def fsMediumDefault : String → Option String := fsOf
  [("architect.json",
    "\x7b\"status\":\"pass\",\"issues\":[\x7b\"file\":\"x.py\",\"issue\":\"hmm\"\x7d]\x7d"),
   ("security.json", "\x7b\"status\":\"pass\",\"issues\":[]\x7d"),
   ("testing.json", "\x7b\"status\":\"pass\",\"issues\":[]\x7d")]

/-- Lookup after the map step of an overwriting insert. -/
theorem objGet_map_overwrite (kvs : List (String × Json)) (k : String) (v : Json)
    (hany : kvs.any (fun kv => kv.1 = k) = true) :
    objGet (kvs.map (fun kv => if kv.1 = k then (k, v) else kv)) k = some v := by
  induction kvs with
  | nil => simp at hany
  | cons hd tl ih =>
    by_cases hhd : hd.1 = k
    · simp [objGet, hhd]
    · simp only [List.any_cons, hhd, decide_eq_true_eq, false_or] at hany
      simp only [List.map_cons, objGet, hhd, if_false]
      simpa [hhd] using ih hany

/-- Lookup of an untouched key after an appending insert. -/
theorem objGet_append_single (kvs : List (String × Json)) (k k' : String) (v : Json) :
    objGet (kvs ++ [(k, v)]) k' =
      match objGet kvs k' with
      | some w => some w
      | none => if k = k' then some v else none := by
  induction kvs with
  | nil => simp [objGet]
  | cons hd tl ih =>
    by_cases hhd : hd.1 = k'
    · simp [objGet, hhd]
    · simpa [objGet, hhd] using ih

/-- Inserting a key and reading it back gives the inserted value. -/
theorem objGet_objInsert_self (kvs : List (String × Json)) (k : String) (v : Json) :
    objGet (objInsert kvs k v) k = some v := by
  unfold objInsert
  by_cases hany : kvs.any (fun kv => kv.1 = k) = true
  · rw [if_pos hany]
    exact objGet_map_overwrite kvs k v hany
  · rw [if_neg hany]
    rw [objGet_append_single kvs k k v]
    have hnone : objGet kvs k = none := by
      induction kvs with
      | nil => rfl
      | cons hd tl ih =>
        simp only [List.any_cons, Bool.or_eq_true, decide_eq_true_eq] at hany
        push_neg at hany
        simp only [objGet, hany.1, if_false]
        exact ih (by simpa using hany.2)
    simp [hnone]

/-- Inserting a key leaves every other key's lookup unchanged. -/
theorem objGet_objInsert_ne (kvs : List (String × Json)) (k k' : String) (v : Json)
    (h : k' ≠ k) : objGet (objInsert kvs k v) k' = objGet kvs k' := by
  unfold objInsert
  by_cases hany : kvs.any (fun kv => kv.1 = k) = true
  · rw [if_pos hany]
    clear hany
    have hkk : ¬k = k' := fun hh => h hh.symm
    induction kvs with
    | nil => rfl
    | cons hd tl ih =>
      by_cases hhd : hd.1 = k
      · have hne : ¬hd.1 = k' := by rw [hhd]; exact hkk
        simp only [List.map_cons, objGet, hhd, if_true, hkk, if_false, hne]
        exact ih
      · by_cases hk' : hd.1 = k'
        · have hne : ¬k' = k := fun hh => hhd (hk'.trans hh)
          simp [objGet, hhd, hk', hne]
        · simp only [List.map_cons, objGet, hhd, if_false, hk']
          exact ih
  · rw [if_neg hany]
    rw [objGet_append_single kvs k k' v]
    cases hg : objGet kvs k' with
    | some w => rfl
    | none => rw [if_neg (fun hh => h hh.symm)]

/-- A value equal (as Python `==`) to one string literal is not equal to a
different one. -/
theorem eqStrLit_unique (v : Option Json) (a b : String) (ha : eqStrLit v a = true)
    (hab : b ≠ a) : eqStrLit v b = false := by
  match v with
  | some (.str t) =>
    unfold eqStrLit at ha ⊢
    simp only [decide_eq_true_eq] at ha
    subst ha
    exact decide_eq_false (fun h => hab h.symm)
  | none => simp [eqStrLit] at ha
  | some .null => simp [eqStrLit] at ha
  | some (.bool b') => simp [eqStrLit] at ha
  | some (.num n) => simp [eqStrLit] at ha
  | some (.arr xs) => simp [eqStrLit] at ha
  | some (.obj kvs) => simp [eqStrLit] at ha

/-- Stamping the reviewer does not change the severity value. -/
theorem sevTag_stampRole (role : String) (kvs : List (String × Json)) :
    sevTag (stampRole role (.obj kvs)) = objGet kvs "severity" := by
  simp only [stampRole, sevTag]
  exact objGet_objInsert_ne kvs "reviewer" "severity" _ (by decide)

/-- One step of the scanning loop on a dict issue: append the stamped issue
and accumulate the two flags. -/
theorem scanIssue_obj (role : String) (st : Scan) (kvs : List (String × Json)) :
    scanIssue role st (.obj kvs) =
      some ⟨st.hasCritical || isCritIssue (stampRole role (.obj kvs)),
            st.hasHigh || isHighIssue (stampRole role (.obj kvs)),
            st.allIssues ++ [stampRole role (.obj kvs)]⟩ := by
  simp only [scanIssue, setField, dictGet, isCritIssue, isHighIssue, stampRole, sevTag]
  cases hc1 : eqStrLit (objGet (objInsert kvs "reviewer" (.str role)) "severity") "critical" with
  | true =>
    have hh1 : eqStrLit (objGet (objInsert kvs "reviewer" (.str role)) "severity") "high" = false :=
      eqStrLit_unique _ _ _ hc1 (by decide)
    simp [hc1, hh1]
  | false =>
    cases hh1 : eqStrLit (objGet (objInsert kvs "reviewer" (.str role)) "severity") "high" with
    | true => simp [hc1, hh1]
    | false => simp [hc1, hh1]

/-- The inner scanning loop over a list of dict issues. -/
theorem scanIssues_wf (role : String) (xs : List Json) :
    ∀ st, (∀ i ∈ xs, ∃ kvs, i = Json.obj kvs) →
    scanIssues role st xs =
      some ⟨st.hasCritical || (xs.map (stampRole role)).any isCritIssue,
            st.hasHigh || (xs.map (stampRole role)).any isHighIssue,
            st.allIssues ++ xs.map (stampRole role)⟩ := by
  induction xs with
  | nil => intro st _; simp [scanIssues]
  | cons x rest ih =>
    intro st hobj
    obtain ⟨kvs, rfl⟩ := hobj _ (List.mem_cons_self x rest)
    have hstep := scanIssue_obj role st kvs
    simp only [scanIssues, hstep]
    rw [ih _ (fun i hi => hobj i (List.mem_cons_of_mem _ hi))]
    simp [Bool.or_assoc, List.append_assoc]

/-- A well-formed issue is a dict. -/
theorem issueWF_obj (i : Json) (h : issueWF i = true) : ∃ kvs, i = Json.obj kvs := by
  match i with
  | .obj kvs => exact ⟨kvs, rfl⟩
  | .null | .bool _ | .num _ | .str _ | .arr _ => simp [issueWF] at h

/-- The scanning loop on one well-formed review: set `has_critical` on a
failing status, then scan its issues. -/
theorem scanReview_wf (st : Scan) (role : String) (review : Json)
    (h : reviewWF review = true) :
    scanReview st role review =
      some ⟨(st.hasCritical || statusFail review)
              || ((reviewIssues review).map (stampRole role)).any isCritIssue,
            st.hasHigh || ((reviewIssues review).map (stampRole role)).any isHighIssue,
            st.allIssues ++ (reviewIssues review).map (stampRole role)⟩ := by
  match review with
  | .obj kvs =>
    simp only [scanReview, dictGet, statusFail, reviewIssues]
    have hst1 : (if eqStrLit (objGet kvs "status") "fail" = true
        then (⟨true, st.hasHigh, st.allIssues⟩ : Scan) else st) =
        ⟨st.hasCritical || eqStrLit (objGet kvs "status") "fail", st.hasHigh, st.allIssues⟩ := by
      cases hf : eqStrLit (objGet kvs "status") "fail" with
      | true => simp
      | false => simp
    match hiss : objGet kvs "issues" with
    | none =>
      simp only [reviewWF, hiss] at h
      simp only [hiss, Option.getD, iterElems]
      rw [show (if eqStrLit (objGet kvs "status") "fail" = true
          then (⟨true, st.hasHigh, st.allIssues⟩ : Scan) else st) =
          ⟨st.hasCritical || eqStrLit (objGet kvs "status") "fail", st.hasHigh, st.allIssues⟩
          from hst1]
      simp [scanIssues]
    | some (.arr xs) =>
      simp only [reviewWF, hiss] at h
      rw [List.all_eq_true] at h
      simp only [hiss, Option.getD, iterElems]
      rw [show (if eqStrLit (objGet kvs "status") "fail" = true
          then (⟨true, st.hasHigh, st.allIssues⟩ : Scan) else st) =
          ⟨st.hasCritical || eqStrLit (objGet kvs "status") "fail", st.hasHigh, st.allIssues⟩
          from hst1]
      rw [scanIssues_wf role xs _ (fun i hi => issueWF_obj i (h i hi))]
    | some .null => simp [reviewWF, hiss] at h
    | some (.bool _) => simp [reviewWF, hiss] at h
    | some (.num _) => simp [reviewWF, hiss] at h
    | some (.str _) => simp [reviewWF, hiss] at h
    | some (.obj _) => simp [reviewWF, hiss] at h
  | .null | .bool _ | .num _ | .str _ | .arr _ => simp [reviewWF] at h

/-- The outer scanning loop over a well-formed role→review mapping: the
final state collects the merged stamped issue list in order and the two
blocking flags. -/
theorem scanReviews_wf (reviews : List (String × Json)) :
    ∀ st, (∀ rv ∈ reviews, reviewWF rv.2 = true) →
    scanReviews st reviews =
      some ⟨(st.hasCritical || reviews.any (fun rv => statusFail rv.2))
              || (orderedIssues reviews).any isCritIssue,
            st.hasHigh || (orderedIssues reviews).any isHighIssue,
            st.allIssues ++ orderedIssues reviews⟩ := by
  induction reviews with
  | nil => intro st _; simp [scanReviews, orderedIssues]
  | cons rv rest ih =>
    intro st hwf
    have hstep := scanReview_wf st rv.1 rv.2 (hwf rv (List.mem_cons_self rv rest))
    simp only [scanReviews, hstep]
    rw [ih _ (fun x hx => hwf x (List.mem_cons_of_mem _ hx))]
    simp [orderedIssues, List.flatMap_cons, List.any_cons, List.any_append,
      List.append_assoc, Bool.or_assoc, Bool.or_comm, Bool.or_left_comm]

/-- The bucket key of any issue is one of the four recognized severities. -/
theorem bucketKey_cases (i : Json) (s : String) (h : bucketKey i = some s) :
    s = "critical" ∨ s = "high" ∨ s = "medium" ∨ s = "low" := by
  match i with
  | .obj kvs =>
    simp only [bucketKey] at h
    match hg : objGet kvs "severity" with
    | none =>
      simp only [hg, Option.some.injEq] at h
      exact Or.inr (Or.inr (Or.inl h.symm))
    | some (.str t) =>
      simp only [hg] at h
      by_cases ht : t = "critical" ∨ t = "high" ∨ t = "medium" ∨ t = "low"
      · rw [if_pos ht] at h
        obtain rfl := Option.some.inj h
        exact ht
      · rw [if_neg ht] at h
        simp at h
    | some .null => simp only [hg] at h; exact Option.noConfusion h
    | some (.bool _) => simp only [hg] at h; exact Option.noConfusion h
    | some (.num _) => simp only [hg] at h; exact Option.noConfusion h
    | some (.arr _) => simp only [hg] at h; exact Option.noConfusion h
    | some (.obj _) => simp only [hg] at h; exact Option.noConfusion h
  | .null | .bool _ | .num _ | .str _ | .arr _ => simp [bucketKey] at h

/-- The grouping loop on issues whose bucket key is defined: each bucket
collects its issues by a stable filter of the merged list. -/
theorem buildBuckets_wf (xs : List Json) :
    ∀ b, (∀ i ∈ xs, (bucketKey i).isSome = true) →
    buildBuckets b xs =
      some ⟨b.critical ++ xs.filter (fun i => bucketKey i = some "critical"),
            b.high ++ xs.filter (fun i => bucketKey i = some "high"),
            b.medium ++ xs.filter (fun i => bucketKey i = some "medium"),
            b.low ++ xs.filter (fun i => bucketKey i = some "low")⟩ := by
  induction xs with
  | nil => intro b _; simp [buildBuckets]
  | cons i rest ih =>
    intro b hk
    obtain ⟨s, hs⟩ := Option.isSome_iff_exists.mp (hk i (List.mem_cons_self i rest))
    have hrec := fun (b' : Buckets) => ih b' (fun j hj => hk j (List.mem_cons_of_mem _ hj))
    rcases bucketKey_cases i s hs with h | h | h | h <;> subst h <;>
      simp [buildBuckets, bucketAdd, hs, hrec, List.filter_cons, List.append_assoc]

/-- A stamped well-formed issue always has a defined bucket key. -/
theorem bucketKey_stamped_isSome (role : String) (i : Json) (h : issueWF i = true) :
    (bucketKey (stampRole role i)).isSome = true := by
  obtain ⟨kvs, rfl⟩ := issueWF_obj i h
  simp only [issueWF] at h
  simp only [stampRole, bucketKey]
  rw [objGet_objInsert_ne kvs "reviewer" "severity" _ (by decide)]
  match hg : objGet kvs "severity" with
  | none => simp [hg]
  | some (.str s) =>
    simp only [hg, Bool.and_eq_true, Bool.or_eq_true, decide_eq_true_eq] at h
    have hcond : s = "critical" ∨ s = "high" ∨ s = "medium" ∨ s = "low" := by
      have hx := h.1.1; tauto
    simp [hg, hcond]
  | some .null => simp only [hg, Bool.and_eq_true] at h; exact absurd h.1.1 (by simp)
  | some (.bool _) => simp only [hg, Bool.and_eq_true] at h; exact absurd h.1.1 (by simp)
  | some (.num _) => simp only [hg, Bool.and_eq_true] at h; exact absurd h.1.1 (by simp)
  | some (.arr _) => simp only [hg, Bool.and_eq_true] at h; exact absurd h.1.1 (by simp)
  | some (.obj _) => simp only [hg, Bool.and_eq_true] at h; exact absurd h.1.1 (by simp)

/-- A stamped well-formed issue always renders (its `reviewer`, `file` and
`issue` lookups all succeed). -/
theorem renderIssue_stamped (role : String) (i : Json) (h : issueWF i = true) :
    (renderIssue (stampRole role i)).isSome = true := by
  obtain ⟨kvs, rfl⟩ := issueWF_obj i h
  simp only [issueWF, Bool.and_eq_true] at h
  obtain ⟨fv, hfv⟩ := Option.isSome_iff_exists.mp h.1.2
  obtain ⟨iv, hiv⟩ := Option.isSome_iff_exists.mp h.2
  have h1 : objGet (objInsert kvs "reviewer" (Json.str role)) "reviewer" =
      some (Json.str role) := objGet_objInsert_self kvs "reviewer" (Json.str role)
  have h2 : objGet (objInsert kvs "reviewer" (Json.str role)) "file" = some fv := by
    rw [objGet_objInsert_ne kvs "reviewer" "file" _ (by decide)]; exact hfv
  have h3 : objGet (objInsert kvs "reviewer" (Json.str role)) "issue" = some iv := by
    rw [objGet_objInsert_ne kvs "reviewer" "issue" _ (by decide)]; exact hiv
  simp only [stampRole, renderIssue, h1, h2, h3]
  cases hsugg : objGet (objInsert kvs "reviewer" (Json.str role)) "suggestion" with
  | none => simp
  | some sv => cases hpt : pyTruthy sv <;> simp [hpt]

/-- The per-issue rendering loop succeeds when every issue renders. -/
theorem renderAll_some (xs : List Json)
    (h : ∀ i ∈ xs, (renderIssue i).isSome = true) :
    ∃ ls, renderAll xs = some ls := by
  induction xs with
  | nil => exact ⟨[], rfl⟩
  | cons x rest ih =>
    obtain ⟨lx, hlx⟩ := Option.isSome_iff_exists.mp (h x (List.mem_cons_self x rest))
    obtain ⟨ls, hls⟩ := ih (fun i hi => h i (List.mem_cons_of_mem _ hi))
    exact ⟨lx :: ls, by simp [renderAll, hlx, hls]⟩

/-- One bucket renders whenever each of its issues renders. -/
theorem renderBucket_some (sev : String) (issues : List Json)
    (h : ∀ i ∈ issues, (renderIssue i).isSome = true) :
    ∃ lines, renderBucket sev issues = some lines := by
  unfold renderBucket
  by_cases he : issues.isEmpty = true
  · exact ⟨[], by simp [he]⟩
  · obtain ⟨ls, hls⟩ := renderAll_some issues h
    refine ⟨bucketHeader sev issues.length :: (ls.flatten ++ [""]), ?_⟩
    simp [he, hls]

/-- The four-bucket rendering loop succeeds and concatenates the bucket
sections in severity order. -/
theorem renderBuckets_eq (b : Buckets)
    (h : ∀ i ∈ b.critical ++ b.high ++ b.medium ++ b.low, (renderIssue i).isSome = true) :
    ∃ lc lh lm ll,
      renderBucket "critical" b.critical = some lc ∧
      renderBucket "high" b.high = some lh ∧
      renderBucket "medium" b.medium = some lm ∧
      renderBucket "low" b.low = some ll ∧
      renderBuckets b = some (lc ++ lh ++ lm ++ ll) := by
  obtain ⟨lc, hlc⟩ := renderBucket_some "critical" b.critical
    (fun i hi => h i (by simp [hi]))
  obtain ⟨lh, hlh⟩ := renderBucket_some "high" b.high
    (fun i hi => h i (by simp [hi]))
  obtain ⟨lm, hlm⟩ := renderBucket_some "medium" b.medium
    (fun i hi => h i (by simp [hi]))
  obtain ⟨ll, hll⟩ := renderBucket_some "low" b.low
    (fun i hi => h i (by simp [hi]))
  exact ⟨lc, lh, lm, ll, hlc, hlh, hlm, hll, by simp [renderBuckets, hlc, hlh, hlm, hll]⟩

/-- Every member of the merged ordered issue list of a well-formed mapping
is a stamped well-formed issue. -/
theorem mem_orderedIssues_wf (reviews : List (String × Json))
    (hwf : ∀ rv ∈ reviews, reviewWF rv.2 = true) (i : Json)
    (hi : i ∈ orderedIssues reviews) :
    ∃ role i0, issueWF i0 = true ∧ i = stampRole role i0 := by
  rw [orderedIssues, List.mem_flatMap] at hi
  obtain ⟨rv, hrv, hmem⟩ := hi
  rw [List.mem_map] at hmem
  obtain ⟨i0, hi0, rfl⟩ := hmem
  refine ⟨rv.1, i0, ?_, rfl⟩
  have h := hwf rv hrv
  match hr : rv.2 with
  | .obj kvs =>
    rw [hr] at h hi0
    simp only [reviewWF] at h
    match hg : objGet kvs "issues" with
    | none =>
      simp only [reviewIssues, hg] at hi0
      exact absurd hi0 (by simp)
    | some (.arr xs) =>
      simp only [reviewIssues, hg] at hi0
      simp only [hg, List.all_eq_true] at h
      exact h i0 hi0
    | some .null => simp [hg] at h
    | some (.bool _) => simp [hg] at h
    | some (.num _) => simp [hg] at h
    | some (.str _) => simp [hg] at h
    | some (.obj _) => simp [hg] at h
  | .null => rw [hr] at h; simp [reviewWF] at h
  | .bool _ => rw [hr] at h; simp [reviewWF] at h
  | .num _ => rw [hr] at h; simp [reviewWF] at h
  | .str _ => rw [hr] at h; simp [reviewWF] at h
  | .arr _ => rw [hr] at h; simp [reviewWF] at h

/-- Master characterization of `aggregate_reviews` on a well-formed
role→review mapping with a non-empty merged issue list: it succeeds, the
report is the summary header, the four bucket sections in fixed severity
order (each bucket a stable filter of the merged ordered issue list), and
the closing message and exit code decided by the two flags. -/
theorem aggregate_reviews_wf (fs : String → Option String)
    (a s t : String) (d dv u : Option String)
    (hwf : ∀ rv ∈ reviewsOf fs a s t d dv u, reviewWF rv.2 = true)
    (hne : orderedIssues (reviewsOf fs a s t d dv u) ≠ []) :
    ∃ lc lh lm ll,
      renderBucket "critical" ((orderedIssues (reviewsOf fs a s t d dv u)).filter
        (fun i => bucketKey i = some "critical")) = some lc ∧
      renderBucket "high" ((orderedIssues (reviewsOf fs a s t d dv u)).filter
        (fun i => bucketKey i = some "high")) = some lh ∧
      renderBucket "medium" ((orderedIssues (reviewsOf fs a s t d dv u)).filter
        (fun i => bucketKey i = some "medium")) = some lm ∧
      renderBucket "low" ((orderedIssues (reviewsOf fs a s t d dv u)).filter
        (fun i => bucketKey i = some "low")) = some ll ∧
      aggregate_reviews fs a s t d dv u = .ok
        (summaryHeader (orderedIssues (reviewsOf fs a s t d dv u)).length ::
            (lc ++ lh ++ lm ++ ll) ++
            (if hasCriticalOf (reviewsOf fs a s t d dv u) then [mustFixMsg]
             else if hasHighOf (reviewsOf fs a s t d dv u) then [highMsg, bypassMsg]
             else [noBlockingMsg]),
         if hasCriticalOf (reviewsOf fs a s t d dv u) then 1
         else if hasHighOf (reviewsOf fs a s t d dv u) then 1 else 0) := by
  have hscan : scanReviews initScan (reviewsOf fs a s t d dv u) =
      some ⟨hasCriticalOf (reviewsOf fs a s t d dv u),
            hasHighOf (reviewsOf fs a s t d dv u),
            orderedIssues (reviewsOf fs a s t d dv u)⟩ := by
    rw [scanReviews_wf (reviewsOf fs a s t d dv u) initScan hwf]
    simp [initScan, hasCriticalOf, hasHighOf]
  have hwfIssue : ∀ i ∈ orderedIssues (reviewsOf fs a s t d dv u),
      (bucketKey i).isSome = true ∧ (renderIssue i).isSome = true := by
    intro i hi
    obtain ⟨role, i0, h0, rfl⟩ := mem_orderedIssues_wf _ hwf i hi
    exact ⟨bucketKey_stamped_isSome role i0 h0, renderIssue_stamped role i0 h0⟩
  have hbuck : buildBuckets initBuckets (orderedIssues (reviewsOf fs a s t d dv u)) =
      some ⟨(orderedIssues (reviewsOf fs a s t d dv u)).filter
              (fun i => bucketKey i = some "critical"),
            (orderedIssues (reviewsOf fs a s t d dv u)).filter
              (fun i => bucketKey i = some "high"),
            (orderedIssues (reviewsOf fs a s t d dv u)).filter
              (fun i => bucketKey i = some "medium"),
            (orderedIssues (reviewsOf fs a s t d dv u)).filter
              (fun i => bucketKey i = some "low")⟩ := by
    rw [buildBuckets_wf (orderedIssues (reviewsOf fs a s t d dv u)) initBuckets
      (fun i hi => (hwfIssue i hi).1)]
    simp [initBuckets]
  obtain ⟨lc, lh, lm, ll, hlc, hlh, hlm, hll, hrb⟩ :=
    renderBuckets_eq
      ⟨(orderedIssues (reviewsOf fs a s t d dv u)).filter
          (fun i => bucketKey i = some "critical"),
        (orderedIssues (reviewsOf fs a s t d dv u)).filter
          (fun i => bucketKey i = some "high"),
        (orderedIssues (reviewsOf fs a s t d dv u)).filter
          (fun i => bucketKey i = some "medium"),
        (orderedIssues (reviewsOf fs a s t d dv u)).filter
          (fun i => bucketKey i = some "low")⟩
      (by
        intro i hi
        simp only [List.mem_append] at hi
        rcases hi with ((hi | hi) | hi) | hi <;>
          exact (hwfIssue i (List.mem_of_mem_filter hi)).2)
  refine ⟨lc, lh, lm, ll, hlc, hlh, hlm, hll, ?_⟩
  have hni : (orderedIssues (reviewsOf fs a s t d dv u)).isEmpty = false := by
    cases hm : orderedIssues (reviewsOf fs a s t d dv u) with
    | nil => exact absurd hm hne
    | cons x xs => rfl
  simp only [aggregate_reviews, hscan, hni, Bool.false_eq_true, if_false, hbuck, hrb]
  cases hasCriticalOf (reviewsOf fs a s t d dv u) <;>
    cases hasHighOf (reviewsOf fs a s t d dv u) <;> simp
/-- The four severity buckets partition the merged issue list: their
concatenation is a permutation of it (every issue lands in exactly one
bucket). -/
theorem filter_four_perm (xs : List Json)
    (h : ∀ i ∈ xs, (bucketKey i).isSome = true) :
    (xs.filter (fun i => bucketKey i = some "critical") ++
     xs.filter (fun i => bucketKey i = some "high") ++
     xs.filter (fun i => bucketKey i = some "medium") ++
     xs.filter (fun i => bucketKey i = some "low")).Perm xs := by
  induction xs with
  | nil => simp
  | cons x rest ih =>
    have hrest := ih (fun i hi => h i (List.mem_cons_of_mem _ hi))
    have hrest' : (rest.filter (fun i => bucketKey i = some "critical") ++
        (rest.filter (fun i => bucketKey i = some "high") ++
         (rest.filter (fun i => bucketKey i = some "medium") ++
          rest.filter (fun i => bucketKey i = some "low")))).Perm rest := by
      simpa [List.append_assoc] using hrest
    obtain ⟨s, hs⟩ := Option.isSome_iff_exists.mp (h x (List.mem_cons_self x rest))
    rcases bucketKey_cases x s hs with hcase | hcase | hcase | hcase <;> subst hcase
    · simp only [List.filter_cons, hs]
      norm_num
      simpa [List.append_assoc] using hrest
    · simp only [List.filter_cons, hs]
      norm_num
      refine List.Perm.trans ?_ (hrest'.cons x)
      simpa [List.append_assoc] using
        (@List.perm_middle Json x
          (rest.filter (fun i => bucketKey i = some "critical"))
          (rest.filter (fun i => bucketKey i = some "high") ++
            (rest.filter (fun i => bucketKey i = some "medium") ++
             rest.filter (fun i => bucketKey i = some "low"))))
    · simp only [List.filter_cons, hs]
      norm_num
      refine List.Perm.trans ?_ (hrest'.cons x)
      simpa [List.append_assoc] using
        (@List.perm_middle Json x
          (rest.filter (fun i => bucketKey i = some "critical") ++
            rest.filter (fun i => bucketKey i = some "high"))
          (rest.filter (fun i => bucketKey i = some "medium") ++
            rest.filter (fun i => bucketKey i = some "low")))
    · simp only [List.filter_cons, hs]
      norm_num
      refine List.Perm.trans ?_ (hrest'.cons x)
      simpa [List.append_assoc] using
        (@List.perm_middle Json x
          (rest.filter (fun i => bucketKey i = some "critical") ++
            (rest.filter (fun i => bucketKey i = some "high") ++
             rest.filter (fun i => bucketKey i = some "medium")))
          (rest.filter (fun i => bucketKey i = some "low")))

/-- A string that parses as JSON is not empty after stripping. -/
theorem json_loads_nonempty (raw : String) (v : Json)
    (h : json_loads (pyStrip raw) = some v) : (pyStrip raw).isEmpty = false := by
  cases he : (pyStrip raw).isEmpty
  · rfl
  · rw [String.isEmpty_iff] at he
    rw [he] at h
    exact Option.noConfusion h

/-- C9: with fewer than three positional arguments (so fewer than four
`sys.argv` entries), the program prints the usage message, exits 1, and
performs no file access at all — the outcome is the same for every file
system. -/
theorem C9_usage_no_file_access (fs fs' : String → Option String)
    (argv : List String) (h : argv.length < 4) :
    mainRun fs argv = Except.ok ([usageMsg], 1) ∧ mainRun fs argv = mainRun fs' argv := by
  match argv with
  | [] => exact ⟨rfl, rfl⟩
  | [_] => exact ⟨rfl, rfl⟩
  | [_, _] => exact ⟨rfl, rfl⟩
  | [_, _, _] => exact ⟨rfl, rfl⟩
  | _ :: _ :: _ :: _ :: rest => simp [List.length_cons] at h; omega

/-- C9 witness: two positional arguments hit the usage path on any file
system, including one where the files would exist. -/
theorem C9_usage_no_file_access_witness :
    mainRun (fun _ => none) ["prog", "architect.json", "security.json"] =
      Except.ok ([usageMsg], 1) ∧
    mainRun (fun _ => none) ["prog", "architect.json", "security.json"] =
      mainRun (fun _ => some "\x7b\x7d") ["prog", "architect.json", "security.json"] :=
  C9_usage_no_file_access (fun _ => none) (fun _ => some "\x7b\x7d")
    ["prog", "architect.json", "security.json"] (by decide)

/-- C4: `load_review` never raises — whenever the path cannot be read, or
the stripped content is empty, or every parse tier fails (direct parse and
brace-span extraction, with or without an envelope whose inner payload
fails), it returns the sentinel `{"status": "error", "issues": []}`. -/
theorem C4_load_never_raises (fs : String → Option String) (p : String) :
    (fs p = none → load_review fs p = errorReview) ∧
    (∀ raw, fs p = some raw → pyStrip raw = "" → load_review fs p = errorReview) ∧
    (∀ raw, fs p = some raw → json_loads (pyStrip raw) = none →
      extractJsonSpan (pyStrip raw) = none → load_review fs p = errorReview) ∧
    (∀ raw sub, fs p = some raw → json_loads (pyStrip raw) = none →
      extractJsonSpan (pyStrip raw) = some sub → json_loads sub = none →
      load_review fs p = errorReview) ∧
    (∀ raw data result, fs p = some raw → json_loads (pyStrip raw) = some data →
      envelopePayload data = some result →
      json_loads (pyStrip (pyReplace (pyReplace result "```json" "") "```" "")) = none →
      extractJsonSpan (pyStrip raw) = none → load_review fs p = errorReview) ∧
    (∀ raw data result sub, fs p = some raw → json_loads (pyStrip raw) = some data →
      envelopePayload data = some result →
      json_loads (pyStrip (pyReplace (pyReplace result "```json" "") "```" "")) = none →
      extractJsonSpan (pyStrip raw) = some sub → json_loads sub = none →
      load_review fs p = errorReview) := by
  refine ⟨?_, ?_, ?_, ?_, ?_, ?_⟩
  · intro h
    simp [load_review, h]
  · intro raw hfs hstrip
    have hemp : ("" : String).isEmpty = true := rfl
    simp [load_review, hfs, hstrip, hemp]
  · intro raw hfs hparse hspan
    by_cases he : (pyStrip raw).isEmpty = true
    · simp [load_review, hfs, he]
    · simp [load_review, hfs, he, hparse, extractFallback, hspan]
  · intro raw sub hfs hparse hspan hsub
    by_cases he : (pyStrip raw).isEmpty = true
    · simp [load_review, hfs, he]
    · simp [load_review, hfs, he, hparse, extractFallback, hspan, hsub]
  · intro raw data result hfs hdata henv hinner hspan
    have he := json_loads_nonempty raw data hdata
    simp [load_review, hfs, he, hdata, henv, hinner, extractFallback, hspan]
  · intro raw data result sub hfs hdata henv hinner hspan hsub
    have he := json_loads_nonempty raw data hdata
    simp [load_review, hfs, he, hdata, henv, hinner, extractFallback, hspan, hsub]

/-- C4 witness: a missing file loads to the sentinel review. -/
theorem C4_load_never_raises_witness :
    load_review (fun _ => none) "missing.json" = errorReview :=
  (C4_load_never_raises (fun _ => none) "missing.json").1 rfl

/-- C6: when a file's content parses to a dict with a string `result`
field, `load_review` strips the fenced code-block markers from that
string, re-parses it, and returns the re-parsed inner value whenever that
inner parse succeeds. -/
theorem C6_envelope_reparse (fs : String → Option String) (p raw : String)
    (data : Json) (result : String) (inner : Json)
    (hfs : fs p = some raw)
    (hdata : json_loads (pyStrip raw) = some data)
    (henv : envelopePayload data = some result)
    (hinner : json_loads (pyStrip (pyReplace (pyReplace result "```json" "") "```" "")) =
      some inner) :
    load_review fs p = inner := by
  have he := json_loads_nonempty raw data hdata
  simp [load_review, hfs, he, hdata, henv, hinner]

/-- C6 witness: the spec's example file — an envelope whose `result` holds
a fenced review object — loads to that inner review object. -/
theorem C6_envelope_reparse_witness :
    load_review fsEnvelope "review.json" =
      Json.obj [("status", Json.str "ok"), ("issues", Json.arr [])] :=
  C6_envelope_reparse fsEnvelope "review.json"
    "\x7b\"result\": \"```json\\n\x7b\\\"status\\\":\\\"ok\\\",\\\"issues\\\":[]\x7d\\n```\"\x7d"
    (Json.obj [("result",
      Json.str "```json\n\x7b\"status\":\"ok\",\"issues\":[]\x7d\n```")])
    "```json\n\x7b\"status\":\"ok\",\"issues\":[]\x7d\n```"
    (Json.obj [("status", Json.str "ok"), ("issues", Json.arr [])])
    rfl rfl rfl rfl

/-- C7: when the trimmed content is not valid JSON but holds a
brace-delimited span (leftmost opening brace through rightmost closing
brace, which is what `extractJsonSpan` computes), `load_review` returns
the JSON parse of that span whenever it succeeds. -/
theorem C7_substring_extraction (fs : String → Option String) (p raw sub : String)
    (v : Json)
    (hfs : fs p = some raw)
    (hne : (pyStrip raw).isEmpty = false)
    (hfail : json_loads (pyStrip raw) = none)
    (hspan : extractJsonSpan (pyStrip raw) = some sub)
    (hparse : json_loads sub = some v) :
    load_review fs p = v := by
  simp [load_review, hfs, hne, hfail, extractFallback, hspan, hparse]

/-- C7 witness: the spec's example — prose around a review object — loads
to that object via substring extraction. -/
theorem C7_substring_extraction_witness :
    load_review fsNoise "review.json" =
      Json.obj [("status", Json.str "ok"), ("issues", Json.arr [])] :=
  C7_substring_extraction fsNoise "review.json"
    "noise before \x7b\"status\":\"ok\",\"issues\":[]\x7d noise after"
    "\x7b\"status\":\"ok\",\"issues\":[]\x7d"
    (Json.obj [("status", Json.str "ok"), ("issues", Json.arr [])])
    rfl rfl rfl rfl rfl

/-- C3 counterexample: a file whose envelope's `result` payload is not
JSON does NOT make the load fail to the fallback review — it returns the
outer envelope object itself (the inner parse error is caught by the same
handler that does substring extraction on the outer content, and that
extraction re-parses the whole outer object). -/
theorem C3_counterexample :
    load_review fsBadInner "review.json" = Json.obj [("result", Json.str "not json")] ∧
    Json.obj [("result", Json.str "not json")] ≠ errorReview := by
  constructor
  · rfl
  · intro h
    injection h with hfields
    injection hfields with hhd htl
    exact List.noConfusion htl

/-- C3 (amended): when the envelope's inner payload fails to parse, the
raised `json.JSONDecodeError` is caught by the handler at line 49, so
`load_review` DOES attempt substring extraction on the outer stripped
content and returns its result (the outer object when the outer content is
one JSON object) — it does not fail outright for the file. -/
theorem C3_inner_failure_uses_outer_extraction (fs : String → Option String)
    (p raw : String) (data : Json) (result : String)
    (hfs : fs p = some raw)
    (hdata : json_loads (pyStrip raw) = some data)
    (henv : envelopePayload data = some result)
    (hinner : json_loads (pyStrip (pyReplace (pyReplace result "```json" "") "```" "")) =
      none) :
    load_review fs p = extractFallback (pyStrip raw) := by
  have he := json_loads_nonempty raw data hdata
  simp [load_review, hfs, he, hdata, henv, hinner]

/-- C3 witness: the bad-inner envelope goes through outer substring
extraction, not the fallback. -/
theorem C3_inner_failure_uses_outer_extraction_witness :
    load_review fsBadInner "review.json" =
      extractFallback (pyStrip "\x7b\"result\": \"not json\"\x7d") :=
  C3_inner_failure_uses_outer_extraction fsBadInner "review.json"
    "\x7b\"result\": \"not json\"\x7d"
    (Json.obj [("result", Json.str "not json")]) "not json" rfl rfl rfl rfl

/-- C10: `load_review` does no shape validation — a successfully parsed
non-object value without a `result` envelope is returned unchanged — and
`aggregate_reviews` is then not total over such loader outputs: with the
architect file holding a JSON array, the unguarded `review.get` raises. -/
theorem C10_no_shape_validation (fs : String → Option String) (p raw : String) (v : Json)
    (hfs : fs p = some raw)
    (hparse : json_loads (pyStrip raw) = some v)
    (hnotobj : ∀ kvs, v ≠ Json.obj kvs) :
    load_review fs p = v ∧
    aggregate_reviews fsNonObject "architect.json" "security.json" "testing.json"
      none none none =
      Except.error "AttributeError or TypeError while scanning reviews" := by
  constructor
  · have he := json_loads_nonempty raw v hparse
    have henv : envelopePayload v = none := by
      match v with
      | .obj kvs => exact absurd rfl (hnotobj kvs)
      | .null => rfl
      | .bool _ => rfl
      | .num _ => rfl
      | .str _ => rfl
      | .arr _ => rfl
    simp [load_review, hfs, he, hparse, henv]
  · rfl

/-- C10 witness: a file holding the array `[5]` loads to that array
unchanged, and the non-object architect review crashes the aggregator. -/
theorem C10_no_shape_validation_witness :
    load_review fsNonObject "value.json" = Json.arr [Json.num 5] ∧
    aggregate_reviews fsNonObject "architect.json" "security.json" "testing.json"
      none none none =
      Except.error "AttributeError or TypeError while scanning reviews" :=
  C10_no_shape_validation fsNonObject "value.json" "[5]" (Json.arr [Json.num 5])
    rfl rfl (fun kvs h => Json.noConfusion h)

/-- C1 counterexample: with security status `"fail"` and every issue list
empty, `aggregate_reviews` prints the no-issues success message and
returns exit code 0 — not exit code 1 with the must-fix message (the
empty-issue early return at line 97 precedes the `has_critical` check). -/
theorem C1_counterexample :
    statusFail (load_review fsFailEmpty "security.json") = true ∧
    orderedIssues (reviewsOf fsFailEmpty "architect.json" "security.json" "testing.json"
      none none none) = [] ∧
    aggregate_reviews fsFailEmpty "architect.json" "security.json" "testing.json"
      none none none = Except.ok ([noIssuesMsg], 0) ∧
    mustFixMsg ∉ [noIssuesMsg] := by
  refine ⟨rfl, rfl, rfl, ?_⟩
  decide

/-- C1 (amended): when every review's issue list is empty the aggregation
returns exit code 0 with the no-issues message, even when some reviewer's
status is `"fail"` — the failing status has no effect in that case. -/
theorem C1_fail_status_empty_issues_exit_zero (fs : String → Option String)
    (a s t : String) (d dv u : Option String)
    (hwf : ∀ rv ∈ reviewsOf fs a s t d dv u, reviewWF rv.2 = true)
    (hfail : ∃ rv ∈ reviewsOf fs a s t d dv u, statusFail rv.2 = true)
    (hempty : orderedIssues (reviewsOf fs a s t d dv u) = []) :
    aggregate_reviews fs a s t d dv u = Except.ok ([noIssuesMsg], 0) := by
  have hscan : scanReviews initScan (reviewsOf fs a s t d dv u) =
      some ⟨hasCriticalOf (reviewsOf fs a s t d dv u),
            hasHighOf (reviewsOf fs a s t d dv u),
            orderedIssues (reviewsOf fs a s t d dv u)⟩ := by
    rw [scanReviews_wf (reviewsOf fs a s t d dv u) initScan hwf]
    simp [initScan, hasCriticalOf, hasHighOf]
  simp [aggregate_reviews, hscan, hempty]

/-- C1 witness: the concrete fail-with-empty-issues run exits 0. -/
theorem C1_fail_status_empty_issues_exit_zero_witness :
    aggregate_reviews fsFailEmpty "architect.json" "security.json" "testing.json"
      none none none = Except.ok ([noIssuesMsg], 0) :=
  C1_fail_status_empty_issues_exit_zero fsFailEmpty
    "architect.json" "security.json" "testing.json" none none none
    (by decide) (by decide) rfl

/-- C2 counterexample: one merged issue carries the unrecognized severity
`"blocker"`; the aggregation does not bucket it as `"medium"` — it fails
with a `KeyError` at `by_severity[severity]`. -/
theorem C2_counterexample :
    orderedIssues (reviewsOf fsOddSeverity "architect.json" "security.json" "testing.json"
        none none none) =
      [Json.obj [("file", Json.str "x.py"), ("issue", Json.str "bad"),
        ("severity", Json.str "blocker"), ("reviewer", Json.str "architect")]] ∧
    aggregate_reviews fsOddSeverity "architect.json" "security.json" "testing.json"
      none none none = Except.error "KeyError: unrecognized severity value" :=
  ⟨rfl, rfl⟩

/-- C2 (amended): an issue with an ABSENT severity field is bucketed as
`"medium"`, and on runs where every severity is absent or one of the four
recognized values the aggregation succeeds and the four buckets partition
the merged issue set (their concatenation is a permutation of it); an
issue with a severity string outside the four makes the aggregation raise
`KeyError` instead (see the counterexample). -/
theorem C2_buckets_partition (fs : String → Option String)
    (a s t : String) (d dv u : Option String)
    (hwf : ∀ rv ∈ reviewsOf fs a s t d dv u, reviewWF rv.2 = true)
    (hne : orderedIssues (reviewsOf fs a s t d dv u) ≠ []) :
    (∃ r, aggregate_reviews fs a s t d dv u = Except.ok r) ∧
    (∀ i ∈ orderedIssues (reviewsOf fs a s t d dv u),
      sevTag i = none → bucketKey i = some "medium") ∧
    ((orderedIssues (reviewsOf fs a s t d dv u)).filter
        (fun i => bucketKey i = some "critical") ++
     (orderedIssues (reviewsOf fs a s t d dv u)).filter
        (fun i => bucketKey i = some "high") ++
     (orderedIssues (reviewsOf fs a s t d dv u)).filter
        (fun i => bucketKey i = some "medium") ++
     (orderedIssues (reviewsOf fs a s t d dv u)).filter
        (fun i => bucketKey i = some "low")).Perm
      (orderedIssues (reviewsOf fs a s t d dv u)) := by
  refine ⟨?_, ?_, ?_⟩
  · obtain ⟨lc, lh, lm, ll, _, _, _, _, haggr⟩ :=
      aggregate_reviews_wf fs a s t d dv u hwf hne
    exact ⟨_, haggr⟩
  · intro i hi hnone
    obtain ⟨role, i0, h0, rfl⟩ := mem_orderedIssues_wf _ hwf i hi
    obtain ⟨kvs, rfl⟩ := issueWF_obj i0 h0
    simp only [stampRole, sevTag] at hnone ⊢
    simp [bucketKey, hnone]
  · refine filter_four_perm _ ?_
    intro i hi
    obtain ⟨role, i0, h0, rfl⟩ := mem_orderedIssues_wf _ hwf i hi
    exact bucketKey_stamped_isSome role i0 h0

/-- C2 witness: a run whose single issue has no severity field succeeds,
buckets that issue as medium, and the buckets partition the merged set. -/
theorem C2_buckets_partition_witness :
    (∃ r, aggregate_reviews fsMediumDefault "architect.json" "security.json" "testing.json"
        none none none = Except.ok r) ∧
    (∀ i ∈ orderedIssues (reviewsOf fsMediumDefault "architect.json" "security.json"
        "testing.json" none none none),
      sevTag i = none → bucketKey i = some "medium") ∧
    ((orderedIssues (reviewsOf fsMediumDefault "architect.json" "security.json"
        "testing.json" none none none)).filter
        (fun i => bucketKey i = some "critical") ++
     (orderedIssues (reviewsOf fsMediumDefault "architect.json" "security.json"
        "testing.json" none none none)).filter
        (fun i => bucketKey i = some "high") ++
     (orderedIssues (reviewsOf fsMediumDefault "architect.json" "security.json"
        "testing.json" none none none)).filter
        (fun i => bucketKey i = some "medium") ++
     (orderedIssues (reviewsOf fsMediumDefault "architect.json" "security.json"
        "testing.json" none none none)).filter
        (fun i => bucketKey i = some "low")).Perm
      (orderedIssues (reviewsOf fsMediumDefault "architect.json" "security.json"
        "testing.json" none none none)) :=
  C2_buckets_partition fsMediumDefault "architect.json" "security.json" "testing.json"
    none none none (by decide) (by intro h; exact List.noConfusion h)

/-- C5: on a well-formed mapping with a non-empty merged issue list, the
exit code is 1 with the must-fix message when some review's status is
`"fail"` or some issue is critical (`hasCriticalOf`); otherwise 1 with the
bypass-available messages when some issue is high; otherwise 0 with the
no-blocking message. -/
theorem C5_exit_decision (fs : String → Option String)
    (a s t : String) (d dv u : Option String)
    (hwf : ∀ rv ∈ reviewsOf fs a s t d dv u, reviewWF rv.2 = true)
    (hne : orderedIssues (reviewsOf fs a s t d dv u) ≠ []) :
    ∃ lines,
      aggregate_reviews fs a s t d dv u =
        Except.ok (lines,
          if hasCriticalOf (reviewsOf fs a s t d dv u) then 1
          else if hasHighOf (reviewsOf fs a s t d dv u) then 1 else 0) ∧
      (hasCriticalOf (reviewsOf fs a s t d dv u) = true → mustFixMsg ∈ lines) ∧
      (hasCriticalOf (reviewsOf fs a s t d dv u) = false →
        hasHighOf (reviewsOf fs a s t d dv u) = true →
        highMsg ∈ lines ∧ bypassMsg ∈ lines) ∧
      (hasCriticalOf (reviewsOf fs a s t d dv u) = false →
        hasHighOf (reviewsOf fs a s t d dv u) = false → noBlockingMsg ∈ lines) := by
  obtain ⟨lc, lh, lm, ll, _, _, _, _, haggr⟩ := aggregate_reviews_wf fs a s t d dv u hwf hne
  refine ⟨_, haggr, ?_, ?_, ?_⟩
  · intro hc
    simp [hc]
  · intro hc hh
    simp [hc, hh]
  · intro hc hh
    simp [hc, hh]

/-- C5 witness: the critical-plus-low run exits 1 with the must-fix
message. -/
theorem C5_exit_decision_witness :
    ∃ lines,
      aggregate_reviews fsCritLow "architect.json" "security.json" "testing.json"
          none none none =
        Except.ok (lines,
          if hasCriticalOf (reviewsOf fsCritLow "architect.json" "security.json"
              "testing.json" none none none) then 1
          else if hasHighOf (reviewsOf fsCritLow "architect.json" "security.json"
              "testing.json" none none none) then 1 else 0) ∧
      (hasCriticalOf (reviewsOf fsCritLow "architect.json" "security.json" "testing.json"
          none none none) = true → mustFixMsg ∈ lines) ∧
      (hasCriticalOf (reviewsOf fsCritLow "architect.json" "security.json" "testing.json"
          none none none) = false →
        hasHighOf (reviewsOf fsCritLow "architect.json" "security.json" "testing.json"
          none none none) = true →
        highMsg ∈ lines ∧ bypassMsg ∈ lines) ∧
      (hasCriticalOf (reviewsOf fsCritLow "architect.json" "security.json" "testing.json"
          none none none) = false →
        hasHighOf (reviewsOf fsCritLow "architect.json" "security.json" "testing.json"
          none none none) = false → noBlockingMsg ∈ lines) :=
  C5_exit_decision fsCritLow "architect.json" "security.json" "testing.json"
    none none none (by decide) (by intro h; exact List.noConfusion h)

/-- C8: on a well-formed mapping with a non-empty merged issue list, the
report is the summary header followed by the severity buckets in the fixed
order critical, high, medium, low — each bucket rendered only when
non-empty (`renderBucket` of an empty bucket is no lines) and holding its
issues as a stable filter of the merged list, whose order is the
role-processing order of `reviewsOf`: architect, security, testing, then
the optional roles — followed by the closing message. -/
theorem C8_report_structure (fs : String → Option String)
    (a s t : String) (d dv u : Option String)
    (hwf : ∀ rv ∈ reviewsOf fs a s t d dv u, reviewWF rv.2 = true)
    (hne : orderedIssues (reviewsOf fs a s t d dv u) ≠ []) :
    ∃ lc lh lm ll tail code,
      renderBucket "critical" ((orderedIssues (reviewsOf fs a s t d dv u)).filter
        (fun i => bucketKey i = some "critical")) = some lc ∧
      renderBucket "high" ((orderedIssues (reviewsOf fs a s t d dv u)).filter
        (fun i => bucketKey i = some "high")) = some lh ∧
      renderBucket "medium" ((orderedIssues (reviewsOf fs a s t d dv u)).filter
        (fun i => bucketKey i = some "medium")) = some lm ∧
      renderBucket "low" ((orderedIssues (reviewsOf fs a s t d dv u)).filter
        (fun i => bucketKey i = some "low")) = some ll ∧
      aggregate_reviews fs a s t d dv u = Except.ok
        (summaryHeader (orderedIssues (reviewsOf fs a s t d dv u)).length ::
          (lc ++ lh ++ lm ++ ll) ++ tail, code) := by
  obtain ⟨lc, lh, lm, ll, h1, h2, h3, h4, haggr⟩ := aggregate_reviews_wf fs a s t d dv u hwf hne
  exact ⟨lc, lh, lm, ll, _, _, h1, h2, h3, h4, haggr⟩

/-- C8 witness: the critical-plus-low run renders the critical bucket
before the low bucket with the expected section lines. -/
theorem C8_report_structure_witness :
    ∃ lc lh lm ll tail code,
      renderBucket "critical" ((orderedIssues (reviewsOf fsCritLow "architect.json"
        "security.json" "testing.json" none none none)).filter
        (fun i => bucketKey i = some "critical")) = some lc ∧
      renderBucket "high" ((orderedIssues (reviewsOf fsCritLow "architect.json"
        "security.json" "testing.json" none none none)).filter
        (fun i => bucketKey i = some "high")) = some lh ∧
      renderBucket "medium" ((orderedIssues (reviewsOf fsCritLow "architect.json"
        "security.json" "testing.json" none none none)).filter
        (fun i => bucketKey i = some "medium")) = some lm ∧
      renderBucket "low" ((orderedIssues (reviewsOf fsCritLow "architect.json"
        "security.json" "testing.json" none none none)).filter
        (fun i => bucketKey i = some "low")) = some ll ∧
      aggregate_reviews fsCritLow "architect.json" "security.json" "testing.json"
        none none none = Except.ok
        (summaryHeader (orderedIssues (reviewsOf fsCritLow "architect.json" "security.json"
          "testing.json" none none none)).length :: (lc ++ lh ++ lm ++ ll) ++ tail, code) :=
  C8_report_structure fsCritLow "architect.json" "security.json" "testing.json"
    none none none (by decide) (by intro h; exact List.noConfusion h)
